import Mathlib

/-!
Verification development for the block-wise correlation engine of
`braincode/math/base.py`.

Modelling conventions:
* A 2-D numpy array is a `Mat`: explicit row/column counts plus a total
  entry function into `ℚ`.  IEEE floating point arithmetic is idealized
  as exact rational/real arithmetic; claims about rounding error are out
  of scope, claims about the algebraic values and about NaN production
  are in scope.
* A float value that may be non-finite (NaN or ±Inf) is an `Option ℝ`:
  `none` stands for a non-finite value, `some x` for the finite value
  `x`.  The only division the source performs whose denominator can
  vanish is division by a (square root of a) sum of squares, and in
  every such case the numerator vanishes too (proved in
  `rowSS_eq_zero_centered` below), so every `none` produced by the model
  corresponds to an IEEE NaN (0/0), never to ±Inf.
* Python 2 integer division (`B_size/block_size`) is `Nat` division.
* `joblib.Parallel` dispatches independent block jobs whose write
  regions are the column windows computed in `pcorr2_sugar`; since the
  windows written by distinct dispatched blocks are disjoint, the final
  array content does not depend on scheduling, and the dispatch loop is
  modelled as a sequential monadic fold over the dispatched indices.
* A numpy shape error (raised by `np.dot` on mismatched inner
  dimensions, or by `np.einsum` when the operand shapes cannot be
  broadcast together — numpy broadcasts dimensions of size 1, so
  `einsum` raises only when dimensions sharing a label differ with
  neither equal to 1) is `Except.error ShapeErr.shapeMismatch`.
-/

namespace BrainCode

/-- A 2-D numeric array: `rows × cols`, entries given by a total
function (indices outside the shape are irrelevant to the results the
theorems talk about). -/
structure Mat where
  rows : ℕ
  cols : ℕ
  entry : ℕ → ℕ → ℚ

/-- Shape errors raised by the underlying numpy primitives. -/
inductive ShapeErr where
  | shapeMismatch : ShapeErr
  deriving DecidableEq

/-- `A.mean(1)[i]`: mean of row `i`. -/
def rowMean (A : Mat) (i : ℕ) : ℚ :=
  (∑ k ∈ Finset.range A.cols, A.entry i k) / (A.cols : ℚ)

/-- Entry `k` of row `i` of `A - A.mean(1)[:, None]`. -/
def centered (A : Mat) (i k : ℕ) : ℚ :=
  A.entry i k - rowMean A i

/-- `ssA[i] = ((A - mean)**2).sum(1)[i]`: sum of squared deviations of
row `i`. -/
def rowSS (A : Mat) (i : ℕ) : ℚ :=
  ∑ k ∈ Finset.range A.cols, (centered A i k) ^ 2

/-- Entry `(i, j)` of `np.dot(A_mA, B_mB.T)`: the dot product of the
centered row `i` of `A` with the centered row `j` of `B`. -/
def corrNum (A B : Mat) (i j : ℕ) : ℚ :=
  ∑ k ∈ Finset.range A.cols, centered A i k * centered B j k

/-- A zero-variance row is exactly a constant row: its centered entries
all vanish. -/
theorem rowSS_eq_zero_centered (A : Mat) (i : ℕ) (h : rowSS A i = 0)
    (k : ℕ) (hk : k < A.cols) : centered A i k = 0 := by
  have hnn : ∀ k ∈ Finset.range A.cols, (0:ℚ) ≤ (centered A i k) ^ 2 :=
    fun k _ => sq_nonneg _
  have := (Finset.sum_eq_zero_iff_of_nonneg hnn).mp h
  have hk' := this k (Finset.mem_range.mpr hk)
  exact pow_eq_zero_iff (n := 2) (by norm_num) |>.mp hk'

/-! ### `corr2_coef`, mode `'full'`

`return np.dot(A_mA, B_mB.T)/np.sqrt(np.dot(ssA[:, None], ssB[None]))`.
The divisor is `sqrt(ssA[i] * ssB[j])`; when it is zero the IEEE
division produces a non-finite value (`none`). -/

/-- Entry `(i, j)` of the matrix returned by `corr2_coef(A, B, 'full')`. -/
noncomputable def corr2_full_entry (A B : Mat) (i j : ℕ) : Option ℝ :=
  if rowSS A i * rowSS B j = 0 then none
  else some ((corrNum A B i j : ℝ) / Real.sqrt ((rowSS A i * rowSS B j : ℚ) : ℝ))

/-- `corr2_coef(A, B, 'full')` as called by the source: `np.dot` raises
a shape error when the inner dimensions (the shared column count)
disagree, otherwise the full `p × q` correlation matrix is returned. -/
noncomputable def corr2_coef_full (A B : Mat) : Except ShapeErr (ℕ → ℕ → Option ℝ) :=
  if A.cols = B.cols then Except.ok (corr2_full_entry A B)
  else Except.error ShapeErr.shapeMismatch

/-! ### `corr2_coef`, mode `'pair'` -/

/-- Entry `(i, k)` of `norm_A = (A - A.mean(1)[:, None]) / A.std(1)[:, None]`
(population standard deviation `sqrt(ss/n)`); `none` when the standard
deviation vanishes (the IEEE quotient is then NaN, since a zero-variance
row has vanishing centered entries). -/
noncomputable def normEntry (A : Mat) (i k : ℕ) : Option ℝ :=
  if rowSS A i / (A.cols : ℚ) = 0 then none
  else some ((centered A i k : ℝ) / Real.sqrt ((rowSS A i / (A.cols : ℚ) : ℚ) : ℝ))

/-- `np.nan_to_num` on a scalar: a non-finite value becomes `0` (the
model only ever produces NaNs, never ±Inf, so `0` is the correct
replacement), a finite value is unchanged. -/
def nan2num (v : Option ℝ) : ℝ := v.getD 0

/-- The rowwise dot of the `nan_to_num`-ed normalized matrices over
`A`'s columns, divided by `A.shape[1]`: the value
`np.einsum('ij, ij->i', norm_A, norm_B)/A.shape[1]` yields at an
in-range index when the operand shapes coincide (no broadcasting
involved). -/
noncomputable def pairVec (A B : Mat) (i : ℕ) : ℝ :=
  (∑ k ∈ Finset.range A.cols, nan2num (normEntry A i k) * nan2num (normEntry B i k))
    / (A.cols : ℝ)

/-- Element `i` of
`np.einsum('ij, ij->i', norm_A, norm_B)/A.shape[1]` in general:
numpy broadcasts a dimension of size 1 against the other operand's,
so a size-1 row (or column) dimension reads index 0 throughout, the
shared column range is the larger of the two, and the result has
`max(p, q)` elements. -/
noncomputable def einsum_pair (A B : Mat) (i : ℕ) : ℝ :=
  (∑ k ∈ Finset.range (max A.cols B.cols),
      nan2num (normEntry A (if A.rows = 1 then 0 else i) (if A.cols = 1 then 0 else k)) *
        nan2num (normEntry B (if B.rows = 1 then 0 else i) (if B.cols = 1 then 0 else k)))
    / (A.cols : ℝ)

/-- `corr2_coef(A, B, 'pair')`: `np.einsum('ij, ij->i', ...)` raises a
shape error unless its two operands' shapes are compatible under
numpy's size-1 broadcasting (each dimension pair equal, or one of the
two equal to 1). -/
noncomputable def corr2_coef_pair (A B : Mat) : Except ShapeErr (ℕ → ℝ) :=
  if (A.rows = B.rows ∨ A.rows = 1 ∨ B.rows = 1) ∧
      (A.cols = B.cols ∨ A.cols = 1 ∨ B.cols = 1) then
    Except.ok (einsum_pair A B)
  else Except.error ShapeErr.shapeMismatch

/-- The value returned by `corr2_coef`: a full correlation matrix, or a
paired correlation vector. -/
inductive CorrResult where
  | fullM : (ℕ → ℕ → Option ℝ) → CorrResult
  | pairV : (ℕ → ℝ) → CorrResult

/-- `corr2_coef(A, B, mode)`: dispatch on the mode string; a mode other
than `'full'` and `'pair'` falls off the end of the function (Python
returns `None`). -/
noncomputable def corr2_coef (A B : Mat) (mode : String) : Except ShapeErr (Option CorrResult) :=
  if mode = "full" then (corr2_coef_full A B).map (fun m => some (CorrResult.fullM m))
  else if mode = "pair" then (corr2_coef_pair A B).map (fun v => some (CorrResult.pairV v))
  else Except.ok none

/-! ### `parallel_corr2_coef` / `pcorr2_sugar`

The engine allocates a zero-initialized `(p, q)` memmap, dispatches one
job per index in `range(B_size/block_size)` (Python 2 floor division),
each job writing one column window of the destination, then reads the
array back, applies `np.nan_to_num` and persists the result. -/

/-- `B[lo:hi, :]`: a contiguous row slice of `B`. -/
def Mat.rowSlice (B : Mat) (lo hi : ℕ) : Mat :=
  ⟨hi - lo, B.cols, fun r k => B.entry (lo + r) k⟩

/-- The zero-initialized destination memmap
(`np.memmap(..., mode='w+')` zero-fills). -/
noncomputable def initDest : ℕ → ℕ → Option ℝ := fun _ _ => some 0

/-- `pcorr2_sugar(A, B, output, i, block_size)`: job `i` writes the
column window `[i*bs, q)` (when `(i+1)*bs > q`) or `[i*bs, (i+1)*bs)`
of the destination with `corr2_coef(A, B[window, :])`; a shape error
raised by the correlation kernel propagates out of the job. -/
noncomputable def pcorr2_sugar (A B : Mat) (output : ℕ → ℕ → Option ℝ) (i bs : ℕ) :
    Except ShapeErr (ℕ → ℕ → Option ℝ) :=
  if (i + 1) * bs > B.rows then
    (corr2_coef_full A (B.rowSlice (i * bs) B.rows)).map
      (fun blk => fun r c =>
        if i * bs ≤ c ∧ c < B.rows then blk r (c - i * bs) else output r c)
  else
    (corr2_coef_full A (B.rowSlice (i * bs) ((i + 1) * bs))).map
      (fun blk => fun r c =>
        if i * bs ≤ c ∧ c < (i + 1) * bs then blk r (c - i * bs) else output r c)

/-- The dispatch loop
`Parallel(n_jobs=n_jobs)(delayed(pcorr2_sugar)(A, B, corr_mtx, i, block_size)
for i in range(B_size/block_size))`: the jobs' write windows are
pairwise disjoint, so the resulting array equals the sequential fold
over the dispatched indices; the first job failure propagates. -/
noncomputable def runBlocks (A B : Mat) (bs : ℕ) : Except ShapeErr (ℕ → ℕ → Option ℝ) :=
  (List.range (B.rows / bs)).foldlM (fun out i => pcorr2_sugar A B out i bs) initDest

/-- `parallel_corr2_coef(A, B, filename, block_size)`: run all dispatched
blocks, then `narray = np.nan_to_num(np.array(corr_mtx))` and
`np.save(filename, narray)`; the returned array is the persisted
artifact. -/
noncomputable def parallel_corr2_coef (A B : Mat) (bs : ℕ) :
    Except ShapeErr (ℕ → ℕ → Option ℝ) :=
  (runBlocks A B bs).map (fun out => fun i j => some (nan2num (out i j)))

/-! ### The block dispatch, at the index level

Pure arithmetic shadow of `pcorr2_sugar`'s write windows, used to state
the partitioning claims. -/

/-- The column window `[start, stop)` written by dispatched block `i`:
`[i*bs, q)` when `(i+1)*bs > q`, else `[i*bs, (i+1)*bs)`. -/
def blockCols (q bs i : ℕ) : ℕ × ℕ :=
  if (i + 1) * bs > q then (i * bs, q) else (i * bs, (i + 1) * bs)

/-- The windows of all dispatched blocks, in index order
(`for i in range(B_size/block_size)`). -/
def dispatchedBlocks (q bs : ℕ) : List (ℕ × ℕ) :=
  (List.range (q / bs)).map (blockCols q bs)

/-- The number of dispatched blocks whose window contains column `j`. -/
def colWriteCount (q bs j : ℕ) : ℕ :=
  ((dispatchedBlocks q bs).filter (fun w => w.1 ≤ j ∧ j < w.2)).length

/-! ### `time_lag_corr` -/

/-- `np.correlate(a, v)` (mode `'valid'`) for equal-length inputs — the
only case the source exercises (`c[i]` receives a scalar): the plain
dot product. -/
def np_correlate_valid (a v : List ℚ) : ℚ :=
  (List.zipWith (fun s t => s * t) a v).sum

/-- `time_lag_corr(x, y, maxlag)`: for each `i < maxlag`, left-shift `y`
by `i` samples, zero-pad at the end (`y[i:].tolist()+[0]*i`), and store
`np.correlate(x, lagy) / len(x)`. -/
def time_lag_corr (x y : List ℚ) (maxlag : ℕ) : List ℚ :=
  (List.range maxlag).map
    (fun i => np_correlate_valid x (y.drop i ++ List.replicate i 0) / (x.length : ℚ))

/-! ### Concrete inputs used by witnesses and counterexamples -/

/-- The 1×2 matrix `[[0, 1]]`. -/
def mA01 : Mat := ⟨1, 2, fun _ k => if k = 0 then 0 else 1⟩

/-- The 3×2 matrix `[[0, 1], [1, 0], [0, 1]]`. -/
def mB3 : Mat :=
  ⟨3, 2, fun i k => if i = 1 then (if k = 0 then 1 else 0) else (if k = 0 then 0 else 1)⟩

/-- The 1×2 constant matrix `[[1, 1]]`. -/
def mConst : Mat := ⟨1, 2, fun _ _ => 1⟩

/-- The 1×3 matrix `[[0, 1, 2]]` (a different column count than `mA01`). -/
def mWide : Mat := ⟨1, 3, fun _ k => (k : ℚ)⟩

/-- The 2×2 matrix `[[0, 1], [1, 0]]`. -/
def mTall : Mat := ⟨2, 2, fun i k => if i = k then 0 else 1⟩

/-! ### Claims about the dispatch arithmetic (C2) -/

set_option maxRecDepth 8192 in
/-- Claim C2: the blocks dispatched by `parallel_corr2_coef` are claimed
to cover `[0, q)` exactly.  They do not: for `q = 257`,
`block_size = 32`, the loop `range(B_size/block_size)` dispatches only
8 blocks, columns `0..255` are each written exactly once, and column
`256` is written by no block — the remainder block the claim requires
is never dispatched (the tail branch of `pcorr2_sugar` is unreachable). -/
theorem c2_dispatch_gap_at_257_32 :
    (dispatchedBlocks 257 32).length = 8 ∧
    colWriteCount 257 32 255 = 1 ∧
    colWriteCount 257 32 256 = 0 ∧
    ((List.range 257).all
      (fun j => colWriteCount 257 32 j == if j < 256 then 1 else 0)) = true := by
  decide

/-! ### Unknown-mode behaviour (C10) -/

/-- Claim C10: calling `corr2_coef` with a mode other than `'full'` and
`'pair'` raises no error and returns no result: the `if/elif` chain
falls through and the function yields Python's `None`. -/
theorem c10_unknown_mode_returns_none (A B : Mat) (mode : String)
    (hf : mode ≠ "full") (hp : mode ≠ "pair") :
    corr2_coef A B mode = Except.ok none := by
  simp [corr2_coef, hf, hp]

/-- Witness for C10 at `mode = "mean"`. -/
theorem c10_unknown_mode_returns_none_witness :
    (("mean" : String) ≠ "full" ∧ ("mean" : String) ≠ "pair") ∧
      corr2_coef mA01 mB3 "mean" = Except.ok none :=
  ⟨⟨by decide, by decide⟩,
    c10_unknown_mode_returns_none mA01 mB3 "mean" (by decide) (by decide)⟩

/-! ### Pair-mode shape validation (C8) -/

/-- `sqrt(1/4) = 1/2`. -/
theorem sqrt_quarter : Real.sqrt (((1 : ℚ) / 4 : ℚ) : ℝ) = 1 / 2 := by
  rw [show (((1 : ℚ) / 4 : ℚ) : ℝ) = ((1 / 2 : ℝ)) ^ 2 by push_cast; norm_num]
  exact Real.sqrt_sq (by norm_num)

/-- Evaluation of a normalized entry on a row whose population variance
is `1/4` (standard deviation `1/2`). -/
theorem normEntry_quarter (A : Mat) (i k : ℕ)
    (hs : rowSS A i / (A.cols : ℚ) = 1 / 4) :
    normEntry A i k = some ((centered A i k : ℝ) * 2) := by
  unfold normEntry
  rw [hs, if_neg (by norm_num), sqrt_quarter]
  congr 1
  ring

/-- Counterexample to claim C8: `mA01` (1×2) and `mTall` (2×2) have
unequal row counts, yet `corr2_coef(mA01, mTall, 'pair')` raises no
shape error — `np.einsum` broadcasts the size-1 row dimension — and
returns the length-2 vector `[1, -1]`. -/
theorem c8_counterexample_single_row_broadcasts :
    mA01.rows ≠ mTall.rows ∧
      corr2_coef mA01 mTall "pair" =
        Except.ok (some (CorrResult.pairV (einsum_pair mA01 mTall))) ∧
      einsum_pair mA01 mTall 0 = 1 ∧ einsum_pair mA01 mTall 1 = -1 := by
  have hsA : rowSS mA01 0 / (mA01.cols : ℚ) = 1 / 4 := by
    norm_num [rowSS, centered, rowMean, mA01, Finset.sum_range_succ]
  have hsT0 : rowSS mTall 0 / (mTall.cols : ℚ) = 1 / 4 := by
    norm_num [rowSS, centered, rowMean, mTall, Finset.sum_range_succ]
  have hsT1 : rowSS mTall 1 / (mTall.cols : ℚ) = 1 / 4 := by
    norm_num [rowSS, centered, rowMean, mTall, Finset.sum_range_succ]
  have cA0 : centered mA01 0 0 = -(1 / 2) := by
    norm_num [centered, rowMean, mA01, Finset.sum_range_succ]
  have cA1 : centered mA01 0 1 = 1 / 2 := by
    norm_num [centered, rowMean, mA01, Finset.sum_range_succ]
  have cT00 : centered mTall 0 0 = -(1 / 2) := by
    norm_num [centered, rowMean, mTall, Finset.sum_range_succ]
  have cT01 : centered mTall 0 1 = 1 / 2 := by
    norm_num [centered, rowMean, mTall, Finset.sum_range_succ]
  have cT10 : centered mTall 1 0 = 1 / 2 := by
    norm_num [centered, rowMean, mTall, Finset.sum_range_succ]
  have cT11 : centered mTall 1 1 = -(1 / 2) := by
    norm_num [centered, rowMean, mTall, Finset.sum_range_succ]
  refine ⟨by decide, ?_, ?_, ?_⟩
  · simp [corr2_coef, corr2_coef_pair, mA01, mTall, Except.map]
  · unfold einsum_pair
    rw [show max mA01.cols mTall.cols = 2 from rfl, Finset.sum_range_succ,
      Finset.sum_range_succ, Finset.sum_range_zero]
    simp only [show mA01.rows = 1 from rfl, show mTall.rows = 2 from rfl,
      show mA01.cols = 2 from rfl, show mTall.cols = 2 from rfl]
    norm_num [normEntry_quarter mA01 0 0 hsA, normEntry_quarter mA01 0 1 hsA,
      normEntry_quarter mTall 0 0 hsT0, normEntry_quarter mTall 0 1 hsT0,
      nan2num, cA0, cA1, cT00, cT01]
  · unfold einsum_pair
    rw [show max mA01.cols mTall.cols = 2 from rfl, Finset.sum_range_succ,
      Finset.sum_range_succ, Finset.sum_range_zero]
    simp only [show mA01.rows = 1 from rfl, show mTall.rows = 2 from rfl,
      show mA01.cols = 2 from rfl, show mTall.cols = 2 from rfl]
    norm_num [normEntry_quarter mA01 0 0 hsA, normEntry_quarter mA01 0 1 hsA,
      normEntry_quarter mTall 1 0 hsT1, normEntry_quarter mTall 1 1 hsT1,
      nan2num, cA0, cA1, cT10, cT11]

/-- Claim C8 as amended: `corr2_coef(A, B, 'pair')` fails with the
einsum shape error on unequal row counts only when neither row count is
1 (so the shapes are incompatible even under numpy's size-1
broadcasting); when one operand has a single row, einsum broadcasts it
and the call returns a vector without error. -/
theorem c8_pair_mode_row_mismatch_no_broadcast (A B : Mat)
    (h : A.rows ≠ B.rows) (hA : A.rows ≠ 1) (hB : B.rows ≠ 1) :
    corr2_coef A B "pair" = Except.error ShapeErr.shapeMismatch := by
  have hno : ¬((A.rows = B.rows ∨ A.rows = 1 ∨ B.rows = 1) ∧
      (A.cols = B.cols ∨ A.cols = 1 ∨ B.cols = 1)) := by
    rintro ⟨h1 | h1 | h1, -⟩
    · exact h h1
    · exact hA h1
    · exact hB h1
  simp [corr2_coef, corr2_coef_pair, hno, Except.map]

/-- Witness for the amended C8: 2 rows against 3 rows, neither 1. -/
theorem c8_pair_mode_row_mismatch_no_broadcast_witness :
    (mTall.rows ≠ mB3.rows ∧ mTall.rows ≠ 1 ∧ mB3.rows ≠ 1) ∧
      corr2_coef mTall mB3 "pair" = Except.error ShapeErr.shapeMismatch :=
  ⟨⟨by decide, by decide, by decide⟩,
    c8_pair_mode_row_mismatch_no_broadcast mTall mB3 (by decide) (by decide) (by decide)⟩

/-! ### Streaming-engine shape validation (C5) -/

/-- Counterexample to claim C5: `mA01` has 2 columns, `mWide` has 3, yet
`parallel_corr2_coef mA01 mWide 32` completes without any error — with
`q = 1 < 32 = block_size` not a single block is dispatched, so the
column-count mismatch is never even seen, let alone reported before
dispatch. -/
theorem c5_counterexample_mismatch_succeeds :
    (match parallel_corr2_coef mA01 mWide 32 with
      | Except.ok _ => True
      | Except.error _ => False) := by
  have h : mWide.rows / 32 = 0 := by decide
  simp [parallel_corr2_coef, runBlocks, h, Except.map, pure, Except.pure]

/-- Claim C5 as amended: there is no upfront shape validation — the
destination is allocated and jobs dispatched unconditionally; a
column-count mismatch surfaces as a shape error only from inside a
dispatched block's correlation kernel, hence only when at least one
block is dispatched (`block_size ≤ q`); when `q < block_size` the call
completes without reporting any error. -/
theorem c5_mismatch_error_from_dispatched_block (A B : Mat) (bs : ℕ)
    (hc : A.cols ≠ B.cols) (hbs : 0 < bs) (hq : bs ≤ B.rows) :
    parallel_corr2_coef A B bs = Except.error ShapeErr.shapeMismatch := by
  have h1 : 0 < B.rows / bs := Nat.div_pos hq hbs
  obtain ⟨m, hm⟩ := Nat.exists_eq_succ_of_ne_zero (Nat.pos_iff_ne_zero.mp h1)
  have hsugar : pcorr2_sugar A B initDest 0 bs = Except.error ShapeErr.shapeMismatch := by
    have hb : ¬(B.rows < bs) := by omega
    simp [pcorr2_sugar, corr2_coef_full, Mat.rowSlice, hb, hc, Except.map]
  unfold parallel_corr2_coef runBlocks
  rw [hm, List.range_succ_eq_map, List.foldlM_cons, hsugar]
  rfl

/-- Witness for the amended C5: with `block_size = 1 ≤ q` the mismatch
does surface as a shape error. -/
theorem c5_mismatch_error_from_dispatched_block_witness :
    (mA01.cols ≠ mWide.cols ∧ 0 < 1 ∧ 1 ≤ mWide.rows) ∧
      parallel_corr2_coef mA01 mWide 1 = Except.error ShapeErr.shapeMismatch :=
  ⟨⟨by decide, by decide, by decide⟩,
    c5_mismatch_error_from_dispatched_block mA01 mWide 1 (by decide) (by decide) (by decide)⟩

/-! ### Concrete row statistics used by witnesses -/

/-- The constant row of `mConst` has zero variance. -/
theorem rowSS_mConst_eq : rowSS mConst 0 = 0 := by
  norm_num [rowSS, centered, rowMean, mConst, Finset.sum_range_succ]

/-- Row 0 of `mTall` is not constant. -/
theorem rowSS_mTall_ne : rowSS mTall 0 ≠ 0 := by
  norm_num [rowSS, centered, rowMean, mTall, Finset.sum_range_succ]

/-! ### Degenerate (constant) rows (C1) -/

/-- Counterexample to claim C1: `mConst = [[1, 1]]` has a constant row
0, and the full-mode correlation of `mConst` against `mA01` has a
non-finite (NaN) entry at `(0, 0)` — full mode performs no zero
substitution on degenerate rows. -/
theorem c1_counterexample_constant_row_gives_nan :
    corr2_full_entry mConst mA01 0 0 = none := by
  simp [corr2_full_entry, rowSS_mConst_eq]

/-- Claim C1 as amended: a constant row `i` of `A` makes every entry of
row `i` of `corr2_coef(A, B, 'full')` non-finite (NaN), not zero — full
mode has no NaN replacement; the zero substitution for degenerate rows
exists only in `'pair'` mode (where `nan_to_num` on the normalized rows
makes the result 0) and in `parallel_corr2_coef`'s final cleanup pass. -/
theorem c1_degenerate_row_nan_in_full_zero_in_pair (A B : Mat) (i j : ℕ)
    (hc : A.cols = B.cols) (hss : rowSS A i = 0) :
    corr2_full_entry A B i j = none ∧ pairVec A B i = 0 := by
  refine ⟨by simp [corr2_full_entry, hss], ?_⟩
  have h0 : rowSS A i / (A.cols : ℚ) = 0 := by rw [hss]; simp
  simp [pairVec, normEntry, h0, nan2num]

/-- Witness for the amended C1 at `A = [[1, 1]]`, `B = [[0, 1]]`. -/
theorem c1_degenerate_row_nan_in_full_zero_in_pair_witness :
    (mConst.cols = mA01.cols ∧ rowSS mConst 0 = 0) ∧
      (corr2_full_entry mConst mA01 0 0 = none ∧ pairVec mConst mA01 0 = 0) :=
  ⟨⟨rfl, rowSS_mConst_eq⟩,
    c1_degenerate_row_nan_in_full_zero_in_pair mConst mA01 0 0 rfl rowSS_mConst_eq⟩

/-! ### Diagonal and symmetry of the self-correlation matrix (C7) -/

/-- The sum of squared deviations is non-negative. -/
theorem rowSS_nonneg (A : Mat) (i : ℕ) : 0 ≤ rowSS A i :=
  Finset.sum_nonneg fun _ _ => sq_nonneg _

/-- Claim C7: every diagonal entry of `corr2_coef(A, A, 'full')` at a
non-degenerate row equals 1 (in particular for square `A` with no
constant row, the whole diagonal is 1), and for every `A` the matrix is
symmetric — entries `(i, j)` and `(j, i)` coincide, NaN entries
included. -/
theorem c7_self_corr_diag_one_and_symmetric (A : Mat) (i j : ℕ) :
    (rowSS A i ≠ 0 → corr2_full_entry A A i i = some 1) ∧
      corr2_full_entry A A i j = corr2_full_entry A A j i := by
  constructor
  · intro hss
    have hnum : corrNum A A i i = rowSS A i := by
      simp [corrNum, rowSS, sq]
    have hden : rowSS A i * rowSS A i ≠ 0 := mul_ne_zero hss hss
    have hnn : (0 : ℝ) ≤ (rowSS A i : ℝ) := by exact_mod_cast rowSS_nonneg A i
    have hsqrt : Real.sqrt ((rowSS A i : ℝ) * (rowSS A i : ℝ)) = (rowSS A i : ℝ) :=
      Real.sqrt_mul_self hnn
    have hne : (rowSS A i : ℝ) ≠ 0 := by exact_mod_cast hss
    simp [corr2_full_entry, hden, hnum, Rat.cast_mul, hsqrt, div_self hne]
  · have hnum : corrNum A A i j = corrNum A A j i :=
      Finset.sum_congr rfl fun k _ => mul_comm _ _
    rw [corr2_full_entry, corr2_full_entry, hnum, mul_comm (rowSS A i) (rowSS A j)]

/-- Witness for C7 at the square matrix `[[0, 1], [1, 0]]`, `i = 0`,
`j = 1`. -/
theorem c7_self_corr_diag_one_and_symmetric_witness :
    rowSS mTall 0 ≠ 0 ∧
      (corr2_full_entry mTall mTall 0 0 = some 1 ∧
        corr2_full_entry mTall mTall 0 1 = corr2_full_entry mTall mTall 1 0) :=
  ⟨rowSS_mTall_ne,
    (c7_self_corr_diag_one_and_symmetric mTall 0 1).1 rowSS_mTall_ne,
    (c7_self_corr_diag_one_and_symmetric mTall 0 1).2⟩

/-! ### The persisted artifact is NaN-free (C4) -/

/-- Claim C4: after all blocks complete, `parallel_corr2_coef` reads
the out-of-core array back, applies `np.nan_to_num`, and persists the
cleaned array; the persisted artifact contains no non-finite entry. -/
theorem c4_persisted_artifact_all_finite (A B : Mat) (bs i j : ℕ) :
    (match parallel_corr2_coef A B bs with
      | Except.ok m => m i j ≠ none
      | Except.error _ => True) := by
  cases h : runBlocks A B bs with
  | error e => simp [parallel_corr2_coef, h, Except.map]
  | ok d => simp [parallel_corr2_coef, h, Except.map]

/-! ### Pair mode computes the z-score dot product (C6) -/

open Classical in
/-- Modelled from the claim's wording, for comparison with the source
translation: the z-score of row `i` of `A` at position `k` — subtract
the row mean, divide by the row standard deviation, replace a
non-finite quotient by 0. -/
noncomputable def zscoreSpec (A : Mat) (i k : ℕ) : ℝ :=
  if Real.sqrt ((rowSS A i : ℝ) / (A.cols : ℝ)) = 0 then 0
  else ((A.entry i k : ℝ) - (rowMean A i : ℝ)) / Real.sqrt ((rowSS A i : ℝ) / (A.cols : ℝ))

/-- Modelled from the claim's wording: element `i` of the claimed pair
result — the dot product of the z-scored rows `i` of `A` and of `B`,
divided by the row length `n`. -/
noncomputable def pairSpec (A B : Mat) (i : ℕ) : ℝ :=
  (∑ k ∈ Finset.range A.cols, zscoreSpec A i k * zscoreSpec B i k) / (A.cols : ℝ)

/-- The source's normalized entry (after `nan_to_num`) coincides with
the claim's z-score. -/
theorem nan2num_normEntry_eq_zscoreSpec (A : Mat) (i k : ℕ) :
    nan2num (normEntry A i k) = zscoreSpec A i k := by
  have hcast : ((rowSS A i / (A.cols : ℚ) : ℚ) : ℝ) = (rowSS A i : ℝ) / (A.cols : ℝ) := by
    push_cast
    ring
  by_cases hss : rowSS A i = 0
  · have h0 : rowSS A i / (A.cols : ℚ) = 0 := by rw [hss]; simp
    have hstd : Real.sqrt ((rowSS A i : ℝ) / (A.cols : ℝ)) = 0 := by
      rw [hss]
      simp
    simp [normEntry, h0, nan2num, zscoreSpec, hstd]
  · have hn : 0 < A.cols := by
      rcases Nat.eq_zero_or_pos A.cols with h0c | h0c
      · exact absurd (by simp [rowSS, h0c]) hss
      · exact h0c
    have hpos : 0 < rowSS A i := lt_of_le_of_ne (rowSS_nonneg A i) (Ne.symm hss)
    have h0 : rowSS A i / (A.cols : ℚ) ≠ 0 := by
      apply div_ne_zero hss
      exact_mod_cast hn.ne'
    have hstdpos : 0 < Real.sqrt ((rowSS A i : ℝ) / (A.cols : ℝ)) := by
      apply Real.sqrt_pos.mpr
      apply div_pos
      · exact_mod_cast hpos
      · exact_mod_cast hn
    have hzs : zscoreSpec A i k =
        ((A.entry i k : ℝ) - (rowMean A i : ℝ)) /
          Real.sqrt ((rowSS A i : ℝ) / (A.cols : ℝ)) := by
      rw [zscoreSpec, if_neg hstdpos.ne']
    have hnrm : normEntry A i k =
        some ((centered A i k : ℝ) /
          Real.sqrt ((rowSS A i / (A.cols : ℚ) : ℚ) : ℝ)) := by
      rw [normEntry, if_neg h0]
    rw [hnrm, hzs]
    simp only [nan2num, Option.getD_some]
    rw [hcast]
    congr 1
    rw [centered]
    push_cast
    ring

/-- A broadcast index within the actual dimension is the index itself
(a size-1 dimension only has index 0). -/
theorem bcast_idx_eq {n i : ℕ} (hi : i < n) : (if n = 1 then 0 else i) = i := by
  split
  · omega
  · rfl

/-- On operands of identical shape and at an in-range row index, the
broadcasting einsum reduces to the plain rowwise dot. -/
theorem einsum_pair_eq_pairVec (A B : Mat) (i : ℕ)
    (hr : A.rows = B.rows) (hc : A.cols = B.cols) (hi : i < A.rows) :
    einsum_pair A B i = pairVec A B i := by
  unfold einsum_pair pairVec
  rw [← hc, max_self]
  congr 1
  refine Finset.sum_congr rfl fun k hk => ?_
  have hk' : k < A.cols := Finset.mem_range.mp hk
  have hiB : i < B.rows := hr ▸ hi
  rw [bcast_idx_eq hi, bcast_idx_eq hiB, bcast_idx_eq hk']

/-- Claim C6: for equal-shaped inputs, `corr2_coef(A, B, 'pair')`
returns the length-p vector whose element `i` is the dot product of the
z-scored rows `i` of `A` and `B` (non-finite z-scores replaced by 0)
divided by the row length. -/
theorem c6_pair_mode_is_zscore_dot (A B : Mat) (i : ℕ)
    (hr : A.rows = B.rows) (hc : A.cols = B.cols) (hi : i < A.rows) :
    corr2_coef_pair A B = Except.ok (einsum_pair A B) ∧
      einsum_pair A B i = pairSpec A B i := by
  constructor
  · unfold corr2_coef_pair
    rw [if_pos ⟨Or.inl hr, Or.inl hc⟩]
  · rw [einsum_pair_eq_pairVec A B i hr hc hi]
    unfold pairVec pairSpec
    congr 1
    exact Finset.sum_congr rfl fun k _ => by
      rw [nan2num_normEntry_eq_zscoreSpec A i k, nan2num_normEntry_eq_zscoreSpec B i k]

/-- Witness for C6 at `A = B = [[0, 1]]`, `i = 0`. -/
theorem c6_pair_mode_is_zscore_dot_witness :
    (mA01.rows = mA01.rows ∧ mA01.cols = mA01.cols ∧ 0 < mA01.rows) ∧
      (corr2_coef_pair mA01 mA01 = Except.ok (einsum_pair mA01 mA01) ∧
        einsum_pair mA01 mA01 0 = pairSpec mA01 mA01 0) :=
  ⟨⟨rfl, rfl, by decide⟩,
    c6_pair_mode_is_zscore_dot mA01 mA01 0 rfl rfl (by decide)⟩

/-! ### Time-lagged correlation (C9) -/

/-- A zipWith-product sum is the sum of pointwise products over the
common index range. -/
theorem zipWith_mul_sum (a : List ℚ) :
    ∀ b : List ℚ, (List.zipWith (fun s t => s * t) a b).sum =
      ∑ n ∈ Finset.range (min a.length b.length), a.getD n 0 * b.getD n 0 := by
  induction a with
  | nil => intro b; simp
  | cons x xs ih =>
    intro b
    cases b with
    | nil => simp
    | cons y ys =>
      simp only [List.zipWith_cons_cons, List.sum_cons, ih ys, List.length_cons,
        Nat.succ_min_succ, Finset.sum_range_succ']
      simp [List.getD_cons_succ, List.getD_cons_zero, add_comm]

/-- Element `n` of the zero-padded left shift `y[k:] ++ [0]*k`: the
original element `n + k`, or `0` past the end of `y`. -/
theorem getD_shift_pad (y : List ℚ) (k n : ℕ) (hk : k ≤ y.length) :
    (y.drop k ++ List.replicate k (0 : ℚ)).getD n 0 =
      if n + k < y.length then y.getD (n + k) 0 else 0 := by
  by_cases hn : n < y.length - k
  · rw [List.getD_append _ _ _ _ (by simpa using hn)]
    rw [if_pos (by omega)]
    simp only [List.getD, List.get?_eq_getElem?, List.getElem?_drop]
    rw [Nat.add_comm k n]
  · rw [if_neg (by omega)]
    rcases Nat.lt_or_ge n ((y.drop k ++ List.replicate k (0 : ℚ)).length) with h | h
    · rw [List.getD_append_right _ _ _ _ (by simpa using hn)]
      simp only [List.getD, List.get?_eq_getElem?, List.getElem?_replicate]
      split <;> rfl
    · rw [List.getD_eq_default _ _ h]

/-- Claim C9: for equal-length signals and `0 < maxlag ≤ len(y)`, entry
`k` of `time_lag_corr(x, y, maxlag)` is `(Σ_n x[n]·y[n+k]) / len(x)`
with `y` zero-padded past its end; `k = 0` gives the unlagged
correlation scaled by `1/len(x)`. -/
theorem c9_time_lag_corr_entry (x y : List ℚ) (maxlag k : ℕ)
    (hxy : x.length = y.length) (h0 : 0 < maxlag) (hm : maxlag ≤ y.length)
    (hk : k < maxlag) :
    (time_lag_corr x y maxlag).getD k 0 =
      (∑ n ∈ Finset.range x.length,
        x.getD n 0 * (if n + k < y.length then y.getD (n + k) 0 else 0)) /
        (x.length : ℚ) := by
  have hky : k ≤ y.length := le_trans (le_of_lt hk) hm
  have hget : (time_lag_corr x y maxlag).getD k 0 =
      np_correlate_valid x (y.drop k ++ List.replicate k 0) / (x.length : ℚ) := by
    unfold time_lag_corr
    simp [List.getD, List.getElem?_map, List.getElem?_range, hk]
  rw [hget]
  unfold np_correlate_valid
  rw [zipWith_mul_sum]
  have hlen : (y.drop k ++ List.replicate k (0 : ℚ)).length = x.length := by
    simp [hxy]
    omega
  rw [hlen, Nat.min_self]
  congr 1
  refine Finset.sum_congr rfl fun n _ => ?_
  rw [getD_shift_pad y k n hky]

/-- Witness for C9 at `x = [1, 2]`, `y = [3, 4]`, `maxlag = 2`,
`k = 1`. -/
theorem c9_time_lag_corr_entry_witness :
    (([1, 2] : List ℚ).length = ([3, 4] : List ℚ).length ∧ 0 < 2 ∧
        2 ≤ ([3, 4] : List ℚ).length ∧ 1 < 2) ∧
      (time_lag_corr [1, 2] [3, 4] 2).getD 1 0 =
        (∑ n ∈ Finset.range ([1, 2] : List ℚ).length,
          ([1, 2] : List ℚ).getD n 0 *
            (if n + 1 < ([3, 4] : List ℚ).length then ([3, 4] : List ℚ).getD (n + 1) 0 else 0)) /
          (([1, 2] : List ℚ).length : ℚ) :=
  ⟨⟨rfl, by decide, by decide, by decide⟩,
    c9_time_lag_corr_entry [1, 2] [3, 4] 2 1 rfl (by decide) (by decide) (by decide)⟩

/-! ### Streaming result vs. direct computation (C3) -/

/-- Claim C3 fails on the code: for `A = [[0, 1]]`,
`B = [[0, 1], [1, 0], [0, 1]]`, `block_size = 2`, the single dispatched
block covers only columns `[0, 2)`; the persisted streaming artifact
holds `0` at `(0, 2)` (the memmap's zero initialization, untouched),
while the direct full-mode correlation of `A`'s row 0 with `B`'s row 2
is `1`. -/
theorem c3_streaming_misses_column_of_direct :
    (match parallel_corr2_coef mA01 mB3 2 with
      | Except.ok m => m 0 2 = some 0
      | Except.error _ => False) ∧
    corr2_full_entry mA01 mB3 0 2 = some 1 := by
  constructor
  · unfold parallel_corr2_coef runBlocks pcorr2_sugar corr2_coef_full
    norm_num [List.foldlM, Mat.rowSlice, mB3, mA01, Except.map, Except.bind, bind, pure,
      Except.pure, initDest, nan2num]
  · have hssA : rowSS mA01 0 = 1 / 2 := by
      norm_num [rowSS, centered, rowMean, mA01, Finset.sum_range_succ]
    have hssB : rowSS mB3 2 = 1 / 2 := by
      norm_num [rowSS, centered, rowMean, mB3, Finset.sum_range_succ]
    have hnum : corrNum mA01 mB3 0 2 = 1 / 2 := by
      norm_num [corrNum, centered, rowMean, mA01, mB3, Finset.sum_range_succ]
    unfold corr2_full_entry
    rw [hssA, hssB, hnum]
    have hq : ((1 / 2 * (1 / 2) : ℚ) : ℝ) = ((1 / 2 : ℝ)) ^ 2 := by
      push_cast
      norm_num
    rw [if_neg (by norm_num), hq, Real.sqrt_sq (by norm_num : (0:ℝ) ≤ 1 / 2)]
    norm_num

end BrainCode
